import Mathlib

/-!
# Verification of the ocpp-rpc library against its specification

Shallow embedding of the OCPP-over-WebSocket RPC library: the server
handshake/upgrade logic (`server.ts`), the server-side client construction
(`server-client.ts`), the client connect/reconnect logic (`client.js`) and
the error utilities (`util.ts`).  JS `Buffer`s are byte lists
(`List Nat`, each element `< 256`), JS strings are Lean `String`s, and
nullable JS values are `Option`s.
-/

namespace OcppRpc

/-! ## Error utilities (util.ts) -/

/-- The `OCPPErrorType` string union from util.ts, one constructor per
wire spelling (both `Occurence…` and `Occurrence…` appear). -/
inductive OCPPErrorType where
  | GenericError
  | NotImplemented
  | NotSupported
  | InternalError
  | ProtocolError
  | SecurityError
  | FormationViolation
  | FormatViolation
  | PropertyConstraintViolation
  | OccurenceConstraintViolation
  | OccurrenceConstraintViolation
  | TypeConstraintViolation
  | MessageTypeNotSupported
  | RpcFrameworkError
deriving DecidableEq, Repr

/-- `translateErrorToOCPPCode` from util.ts: the `switch` on the JSON-schema
failure keyword.  The `default:` label of the source falls through into the
`maximum`/`minimum`/`maxLength`/`minLength` group, so every unlisted keyword
yields `FormatViolation`; the explicit patterns below mirror the `case`
labels in source order. -/
def translateErrorToOCPPCode (keyword : String) : OCPPErrorType :=
  match keyword with
  | "exclusiveMaximum" | "exclusiveMinimum" | "multipleOf" | "maxItems"
  | "minItems" | "maxProperties" | "minProperties" | "additionalItems"
  | "required" => .OccurenceConstraintViolation
  | "pattern" | "propertyNames" | "additionalProperties" =>
      .PropertyConstraintViolation
  | "type" => .TypeConstraintViolation
  | "maximum" | "minimum" | "maxLength" | "minLength" => .FormatViolation
  | _ => .FormatViolation

/-- The RPC error classes imported by util.ts from errors.ts.  The LUT in
util.ts uses thirteen distinct classes: `RPCOccurrenceConstraintViolationError`
is imported but never placed in the table (both spellings map to the
single-`r` class), so it does not appear here. -/
inductive RPCErrorClass where
  | RPCGenericError
  | RPCNotImplementedError
  | RPCNotSupportedError
  | RPCInternalError
  | RPCProtocolError
  | RPCSecurityError
  | RPCFormationViolationError
  | RPCFormatViolationError
  | RPCPropertyConstraintViolationError
  | RPCOccurenceConstraintViolationError
  | RPCTypeConstraintViolationError
  | RPCMessageTypeNotSupportedError
  | RPCFrameworkError
deriving DecidableEq, Repr

/-- `rpcErrorLUT` from util.ts: a plain JS object keyed by error-code
string, so lookup of an absent key yields `undefined` (`none`).  Note the
entries for both `OccurenceConstraintViolation` and
`OccurrenceConstraintViolation` name the same class,
`RPCOccurenceConstraintViolationError`. -/
def rpcErrorLUT (type : String) : Option RPCErrorClass :=
  match type with
  | "GenericError" => some .RPCGenericError
  | "NotImplemented" => some .RPCNotImplementedError
  | "NotSupported" => some .RPCNotSupportedError
  | "InternalError" => some .RPCInternalError
  | "ProtocolError" => some .RPCProtocolError
  | "SecurityError" => some .RPCSecurityError
  | "FormationViolation" => some .RPCFormationViolationError
  | "FormatViolation" => some .RPCFormatViolationError
  | "PropertyConstraintViolation" => some .RPCPropertyConstraintViolationError
  | "OccurenceConstraintViolation" => some .RPCOccurenceConstraintViolationError
  | "OccurrenceConstraintViolation" => some .RPCOccurenceConstraintViolationError
  | "TypeConstraintViolation" => some .RPCTypeConstraintViolationError
  | "MessageTypeNotSupported" => some .RPCMessageTypeNotSupportedError
  | "RpcFrameworkError" => some .RPCFrameworkError
  | _ => none

/-- The class-selection step of `createRPCError` in util.ts:
`rpcErrorLUT[type] ?? RPCGenericError`. -/
def createRPCErrorClass (type : String) : RPCErrorClass :=
  (rpcErrorLUT type).getD .RPCGenericError

/-- Modelled from the spec: the outbound wire spelling registered on each
error class.  errors.ts is not among the provided sources; per the spec,
implementations "emit `OccurenceConstraintViolation` outbound" for the
occurrence category, and every other class carries the spelling its LUT
key uses. -/
def RPCErrorClass.rpcErrorCode : RPCErrorClass → String
  | .RPCGenericError => "GenericError"
  | .RPCNotImplementedError => "NotImplemented"
  | .RPCNotSupportedError => "NotSupported"
  | .RPCInternalError => "InternalError"
  | .RPCProtocolError => "ProtocolError"
  | .RPCSecurityError => "SecurityError"
  | .RPCFormationViolationError => "FormationViolation"
  | .RPCFormatViolationError => "FormatViolation"
  | .RPCPropertyConstraintViolationError => "PropertyConstraintViolation"
  | .RPCOccurenceConstraintViolationError => "OccurenceConstraintViolation"
  | .RPCTypeConstraintViolationError => "TypeConstraintViolation"
  | .RPCMessageTypeNotSupportedError => "MessageTypeNotSupported"
  | .RPCFrameworkError => "RpcFrameworkError"

/-! ## Client reconnect classification (client.js, `_tryReconnect`) -/

/-- The `intolerableErrors` array from `_tryReconnect` in client.js. -/
def intolerableErrors : List String :=
  [ "Maximum redirects exceeded",
    "Server sent no subprotocol",
    "Server sent an invalid subprotocol",
    "Server sent a subprotocol but none was requested",
    "Invalid Sec-WebSocket-Accept header" ]

/-- What the client does after a reconnect attempt's connection fails. -/
inductive ReconnectAction where
  | close (code : Nat) (reason : String)
  | scheduleReconnect
deriving DecidableEq, Repr

/-- The failure branch of `_tryReconnect` in client.js: when
`_beginConnect()` rejects with message `errMessage`, an intolerable message
is re-thrown into the outer catch, which calls
`close({code: 1001, reason: err.message})`; any other failure recurses into
`_tryReconnect()`, scheduling another attempt. -/
def tryReconnectFailureAction (errMessage : String) : ReconnectAction :=
  if intolerableErrors.contains errMessage then
    .close 1001 errMessage
  else
    .scheduleReconnect

/-! ### Claim theorems for the error utilities and reconnect logic -/

/-- **C3.** Validation-keyword translation: `translateErrorToOCPPCode`
returns `FormatViolation` for `maximum`, `minimum`, `maxLength`,
`minLength`; `OccurenceConstraintViolation` for `exclusiveMaximum`,
`exclusiveMinimum`, `multipleOf`, `maxItems`, `minItems`, `maxProperties`,
`minProperties`, `additionalItems`, `required`;
`PropertyConstraintViolation` for `pattern`, `propertyNames`,
`additionalProperties`; `TypeConstraintViolation` for `type`; and
`FormatViolation` for every keyword outside these sets. -/
theorem translateErrorToOCPPCode_spec :
    (∀ k ∈ ["maximum", "minimum", "maxLength", "minLength"],
      translateErrorToOCPPCode k = .FormatViolation) ∧
    (∀ k ∈ ["exclusiveMaximum", "exclusiveMinimum", "multipleOf", "maxItems",
            "minItems", "maxProperties", "minProperties", "additionalItems",
            "required"],
      translateErrorToOCPPCode k = .OccurenceConstraintViolation) ∧
    (∀ k ∈ ["pattern", "propertyNames", "additionalProperties"],
      translateErrorToOCPPCode k = .PropertyConstraintViolation) ∧
    translateErrorToOCPPCode "type" = .TypeConstraintViolation ∧
    (∀ k : String,
      k ∉ ["maximum", "minimum", "maxLength", "minLength",
           "exclusiveMaximum", "exclusiveMinimum", "multipleOf", "maxItems",
           "minItems", "maxProperties", "minProperties", "additionalItems",
           "required", "pattern", "propertyNames", "additionalProperties",
           "type"] →
      translateErrorToOCPPCode k = .FormatViolation) := by
  refine ⟨by decide, by decide, by decide, by decide, ?_⟩
  intro k hk
  simp only [List.mem_cons, List.mem_singleton, not_or] at hk
  obtain ⟨h1, h2, h3, h4, h5, h6, h7, h8, h9, h10, h11, h12, h13, h14, h15,
    h16, h17, -⟩ := hk
  unfold translateErrorToOCPPCode
  split <;> simp_all

/-- Closed witness for the conditional part of `translateErrorToOCPPCode_spec`:
the unlisted keyword `"contains"` translates to `FormatViolation`. -/
theorem translateErrorToOCPPCode_spec_witness :
    translateErrorToOCPPCode "contains" = .FormatViolation :=
  translateErrorToOCPPCode_spec.2.2.2.2 "contains" (by decide)

/-- **C7.** Dual error-code spelling: `createRPCErrorClass` maps both
spellings of the occurrence code to the same class, whose registered
outbound spelling is `OccurenceConstraintViolation`; it maps the other
twelve listed codes to pairwise-distinct classes (each also distinct from
the occurrence class); and it maps every unrecognized code string to
`RPCGenericError`. -/
theorem createRPCError_spec :
    createRPCErrorClass "OccurenceConstraintViolation"
        = createRPCErrorClass "OccurrenceConstraintViolation" ∧
    createRPCErrorClass "OccurenceConstraintViolation"
        = .RPCOccurenceConstraintViolationError ∧
    RPCErrorClass.rpcErrorCode .RPCOccurenceConstraintViolationError
        = "OccurenceConstraintViolation" ∧
    (["GenericError", "NotImplemented", "NotSupported", "InternalError",
      "ProtocolError", "SecurityError", "FormationViolation",
      "FormatViolation", "PropertyConstraintViolation",
      "TypeConstraintViolation", "MessageTypeNotSupported",
      "RpcFrameworkError"].map createRPCErrorClass
        |>.Pairwise (· ≠ ·)) ∧
    (∀ c ∈ ["GenericError", "NotImplemented", "NotSupported", "InternalError",
            "ProtocolError", "SecurityError", "FormationViolation",
            "FormatViolation", "PropertyConstraintViolation",
            "TypeConstraintViolation", "MessageTypeNotSupported",
            "RpcFrameworkError"],
      createRPCErrorClass c ≠ .RPCOccurenceConstraintViolationError) ∧
    (∀ s : String,
      s ∉ ["GenericError", "NotImplemented", "NotSupported", "InternalError",
           "ProtocolError", "SecurityError", "FormationViolation",
           "FormatViolation", "PropertyConstraintViolation",
           "OccurenceConstraintViolation", "OccurrenceConstraintViolation",
           "TypeConstraintViolation", "MessageTypeNotSupported",
           "RpcFrameworkError"] →
      createRPCErrorClass s = .RPCGenericError) := by
  refine ⟨by decide, by decide, by decide, by decide, by decide, ?_⟩
  intro s hs
  simp only [List.mem_cons, List.mem_singleton, not_or] at hs
  obtain ⟨h1, h2, h3, h4, h5, h6, h7, h8, h9, h10, h11, h12, h13, h14, -⟩ := hs
  unfold createRPCErrorClass rpcErrorLUT
  split <;> simp_all [Option.getD]

/-- Closed witness for the conditional parts of `createRPCError_spec`:
the unknown code `"TotallyBogusError"` maps to `RPCGenericError`, and the
listed code `"ProtocolError"` does not map to the occurrence class. -/
theorem createRPCError_spec_witness :
    createRPCErrorClass "TotallyBogusError" = .RPCGenericError ∧
    createRPCErrorClass "ProtocolError"
        ≠ .RPCOccurenceConstraintViolationError :=
  ⟨createRPCError_spec.2.2.2.2.2 "TotallyBogusError" (by decide),
   createRPCError_spec.2.2.2.2.1 "ProtocolError" (by decide)⟩

/-- **C4.** Fatal reconnect errors: when a reconnect attempt's connection
failure carries one of the five intolerable messages, no further reconnect
is scheduled and the client closes with code 1001; every other failure
message schedules another reconnect attempt. -/
theorem tryReconnect_fatal_spec :
    (∀ m ∈ intolerableErrors,
        tryReconnectFailureAction m = .close 1001 m) ∧
    tryReconnectFailureAction "Maximum redirects exceeded"
        = .close 1001 "Maximum redirects exceeded" ∧
    tryReconnectFailureAction "Server sent no subprotocol"
        = .close 1001 "Server sent no subprotocol" ∧
    tryReconnectFailureAction "Server sent an invalid subprotocol"
        = .close 1001 "Server sent an invalid subprotocol" ∧
    tryReconnectFailureAction "Server sent a subprotocol but none was requested"
        = .close 1001 "Server sent a subprotocol but none was requested" ∧
    tryReconnectFailureAction "Invalid Sec-WebSocket-Accept header"
        = .close 1001 "Invalid Sec-WebSocket-Accept header" ∧
    (∀ m : String, m ∉ intolerableErrors →
        tryReconnectFailureAction m = .scheduleReconnect) := by
  refine ⟨?_, by decide, by decide, by decide, by decide, by decide, ?_⟩
  · intro m hm
    simp [tryReconnectFailureAction, hm]
  · intro m hm
    simp [tryReconnectFailureAction, hm]

/-- Closed witness for the conditional parts of `tryReconnect_fatal_spec`:
the fatal message closes with 1001 and the ordinary failure message
`"connect ECONNREFUSED"` schedules a retry. -/
theorem tryReconnect_fatal_spec_witness :
    tryReconnectFailureAction "Server sent no subprotocol"
        = .close 1001 "Server sent no subprotocol" ∧
    tryReconnectFailureAction "connect ECONNREFUSED" = .scheduleReconnect :=
  ⟨tryReconnect_fatal_spec.1 "Server sent no subprotocol" (by decide),
   tryReconnect_fatal_spec.2.2.2.2.2.2 "connect ECONNREFUSED" (by decide)⟩

/-! ## Shared connection state (baseclient / client.js `StateEnum`) -/

/-- The four-valued connection state shared by clients and the server. -/
inductive StateEnum where
  | CONNECTING
  | OPEN
  | CLOSING
  | CLOSED
deriving DecidableEq, Repr

/-! ## Server options and `reconfigure` (server.ts) -/

/-- A schema validator as used by `reconfigure`: the server's strict-mode
checks read only its `subprotocol` key (the `validate` member of the real
`Validator` class is not consulted during reconfiguration). -/
structure Validator where
  subprotocol : String
deriving DecidableEq, Repr

/-- The `strictMode` option: `boolean | string[]`.  The JS truthiness of
this value matters in `reconfigure`: `true` and every array (including the
empty array) are truthy. -/
inductive StrictModeOpt where
  | bool (b : Bool)
  | list (protocols : List String)
deriving DecidableEq, Repr

/-- JS truthiness of a `strictMode` value: arrays are always truthy. -/
def StrictModeOpt.truthy : StrictModeOpt → Bool
  | .bool b => b
  | .list _ => true

/-- The reconfigurable server options (`RPCServerOptionsReconfigurable`),
with the defaults installed by the `RPCServer` constructor.
`maxBadMessages` defaults to `Infinity`, modelled as `none`. -/
structure ServerOptions where
  protocols : List String := []
  callTimeoutMs : Nat := 30000
  pingIntervalMs : Nat := 30000
  deferPingsOnActivity : Bool := false
  respondWithDetailedErrors : Bool := false
  callConcurrency : Nat := 1
  maxBadMessages : Option Nat := none
  strictMode : StrictModeOpt := .bool false
  strictModeValidators : List Validator := []
deriving DecidableEq, Repr

/-- A partial options record passed to `reconfigure`; `none` marks a key
absent from the supplied object, left at its previous value by
`Object.assign`. -/
structure ServerOptionsDelta where
  protocols : Option (List String) := none
  callTimeoutMs : Option Nat := none
  pingIntervalMs : Option Nat := none
  deferPingsOnActivity : Option Bool := none
  respondWithDetailedErrors : Option Bool := none
  callConcurrency : Option Nat := none
  maxBadMessages : Option (Option Nat) := none
  strictMode : Option StrictModeOpt := none
  strictModeValidators : Option (List Validator) := none
deriving Repr

/-- `Object.assign({}, this._options, options)`: every key present in the
delta overrides the old value. -/
def mergeOptions (old : ServerOptions) (d : ServerOptionsDelta) : ServerOptions where
  protocols := d.protocols.getD old.protocols
  callTimeoutMs := d.callTimeoutMs.getD old.callTimeoutMs
  pingIntervalMs := d.pingIntervalMs.getD old.pingIntervalMs
  deferPingsOnActivity := d.deferPingsOnActivity.getD old.deferPingsOnActivity
  respondWithDetailedErrors :=
    d.respondWithDetailedErrors.getD old.respondWithDetailedErrors
  callConcurrency := d.callConcurrency.getD old.callConcurrency
  maxBadMessages := d.maxBadMessages.getD old.maxBadMessages
  strictMode := d.strictMode.getD old.strictMode
  strictModeValidators := d.strictModeValidators.getD old.strictModeValidators

/-- The strict-protocol list computed by `reconfigure`: an array-valued
`strictMode` is used verbatim; `strictMode === true` borrows the
configured protocol list; `false` leaves the list empty.  (The source's
inner `!newOpts.protocols` throw is unreachable: a truthy `strictMode`
with absent protocols is already rejected by the earlier length check.) -/
def strictProtocolsOf (newOpts : ServerOptions) : List String :=
  match newOpts.strictMode with
  | .list l => l
  | .bool true => newOpts.protocols
  | .bool false => []

/-- `reconfigure` from server.ts as a pure function: merge the options,
reject a truthy `strictMode` with an empty protocol list, build the
combined validator map from the standard validators plus
`strictModeValidators` (`standardValidators` lives in a module outside the
provided sources, so the standard set is a parameter), and reject any
strict protocol with no validator.  Only on success does
`this._options = newOpts` run, so an error leaves the options unchanged. -/
def reconfigure (standardValidators : List Validator) (old : ServerOptions)
    (d : ServerOptionsDelta) : Except String ServerOptions :=
  let newOpts := mergeOptions old d
  if newOpts.strictMode.truthy ∧ newOpts.protocols.isEmpty then
    .error "strictMode requires at least one subprotocol"
  else
    let strictValidators := standardValidators ++ newOpts.strictModeValidators
    let strictProtocols := strictProtocolsOf newOpts
    match strictProtocols.find? (fun protocol =>
        ¬ strictValidators.any (fun v => v.subprotocol = protocol)) with
    | some missing =>
        .error ("Missing strictMode validator for subprotocol '"
          ++ missing ++ "'")
    | none => .ok newOpts

/-- The effect of `reconfigure` on the server's `_options` field: the new
options on success, the previous options when the call throws. -/
def applyReconfigure (standardValidators : List Validator)
    (old : ServerOptions) (d : ServerOptionsDelta) : ServerOptions :=
  match reconfigure standardValidators old d with
  | .ok newOpts => newOpts
  | .error _ => old

/-! ## Subprotocol selection (server.ts `accept` / `handleProtocols`) -/

/-- A dynamically-typed JS value, for the opaque `session: any` payload.
`{}` is `.object []`. -/
inductive JSValue where
  | undefined
  | jsNull
  | object (fields : List (String × String))
  | str (s : String)
  | num (n : Int)
  | boolean (b : Bool)
deriving DecidableEq, Repr

/-- The JS nullish-coalescing operator `a ?? b`: substitutes `b` exactly
when `a` is `undefined` or `null`. -/
def jsNullish (a b : JSValue) : JSValue :=
  match a with
  | .undefined => b
  | .jsNull => b
  | v => v

/-- The server-side handshake record (`RPCServerClientHandshake`),
restricted to the fields the verified operations read.  `password` holds
the raw bytes extracted from the `Authorization` header, or `none`. -/
structure Handshake where
  identity : String
  protocols : List String
  password : Option (List Nat)
  endpoint : String
deriving DecidableEq, Repr

/-- The record `accept` caches in `_pendingUpgrades` for the connection
step. -/
structure PendingUpgrade where
  session : JSValue
  protocol : Option String
  handshake : Handshake
deriving DecidableEq, Repr

/-- The protocol-selection step inside `accept` (server.ts): an explicit
protocol must be in the client's requested set (else a 400 upgrade error);
with no explicit protocol, the first of the server's configured protocols
also requested by the client is picked (`undefined` when none overlap). -/
def acceptSelectProtocol (serverProtocols requested : List String)
    (explicit : Option String) : Except (Nat × String) (Option String) :=
  match explicit with
  | none => .ok (serverProtocols.find? (fun p => requested.contains p))
  | some p =>
      if requested.contains p then .ok (some p)
      else .error (400, "Client doesn't support expected subprotocol")

/-- The body of `accept` after the readyState check: select the protocol
and cache `{session: session ?? {}, protocol, handshake}`. -/
def acceptBuildPending (hs : Handshake) (serverProtocols : List String)
    (session : JSValue) (explicit : Option String) :
    Except (Nat × String) PendingUpgrade :=
  match acceptSelectProtocol serverProtocols hs.protocols explicit with
  | .error e => .error e
  | .ok protocol => .ok ⟨jsNullish session (.object []), protocol, hs⟩

/-- The `handleProtocols` callback handed to the `WebSocketServer`:
`pendingUpgrade?.protocol ?? false`, where `none` stands for `false`
(accept the upgrade without naming a subprotocol). -/
def handleProtocols (pending : Option PendingUpgrade) : Option String :=
  pending.bind (·.protocol)

/-- Interface behaviour of the external `ws` transport: when
`handleProtocols` returns a protocol name it becomes `ws.protocol`; when
it returns `false`, the upgrade still completes with no
`Sec-WebSocket-Protocol` response header and `ws.protocol` is the empty
string. -/
def wsNegotiatedProtocol (pending : Option PendingUpgrade) : String :=
  (handleProtocols pending).getD ""

/-! ## Server-client construction (server-client.ts / `_onConnection`) -/

/-- The slice of a `ws.WebSocket` read by the verified code: its
negotiated subprotocol. -/
structure WsHandle where
  protocol : String
deriving DecidableEq, Repr

/-- The base-client options assembled by `_onConnection`, restricted to
the fields the verified operations read. -/
structure RPCBaseClientOptions where
  identity : String
  reconnect : Bool
  protocols : List String
  callTimeoutMs : Nat
  pingIntervalMs : Nat
  callConcurrency : Nat
deriving DecidableEq, Repr

/-- The observable state of an `RPCServerClient` after construction. -/
structure RPCServerClientModel where
  options : RPCBaseClientOptions
  state : StateEnum
  identity : String
  protocol : String
  session : JSValue
  handshake : Handshake
deriving DecidableEq, Repr

/-- The `RPCServerClient` constructor (server-client.ts): after
`super(options)`, it sets `_state = StateEnum.OPEN`,
`_identity = this._options.identity`, `_ws = ws`,
`_protocol = ws.protocol`, and stores the session and handshake.  There is
no intermediate `CONNECTING` state: the constructed object is `OPEN`. -/
def mkRPCServerClient (options : RPCBaseClientOptions) (ws : WsHandle)
    (handshake : Handshake) (session : JSValue) : RPCServerClientModel where
  options := options
  state := .OPEN
  identity := options.identity
  protocol := ws.protocol
  session := session
  handshake := handshake

/-- `_onConnection` from server.ts: require the server `OPEN` and a
pending upgrade for the request, then construct the `RPCServerClient` with
the server's per-client options and `reconnect: false`. -/
def onConnection (serverState : StateEnum) (opts : ServerOptions)
    (pending : Option PendingUpgrade) (ws : WsHandle) :
    Except String RPCServerClientModel :=
  if serverState ≠ StateEnum.OPEN then
    .error "Server is no longer open"
  else
    match pending with
    | none => .error "Upgrade is not pending"
    | some pu =>
        .ok (mkRPCServerClient
          { identity := pu.handshake.identity
            reconnect := false
            protocols := opts.protocols
            callTimeoutMs := opts.callTimeoutMs
            pingIntervalMs := opts.pingIntervalMs
            callConcurrency := opts.callConcurrency }
          ws pu.handshake pu.session)

/-! ## Client `connect()` (client.js) -/

/-- How a call to `connect()` returns to its caller. -/
inductive ConnectReturn where
  | returnedExistingPromise
  | resolvedOpen
  | threw (message : String)
deriving DecidableEq, Repr

/-- The observable outcome of one `connect()` call: the client state after
the call, the `close` event emitted during it (if any), whether a fresh
`_beginConnect` was started, and the returned/thrown result. -/
structure ConnectOutcome where
  newState : StateEnum
  closeEvent : Option (Nat × String)
  beganNewConnection : Bool
  result : ConnectReturn
deriving DecidableEq, Repr

/-- `connect()` from client.js.  `beginConnectResult` abstracts the
transport outcome of `_beginConnect()` (`.ok` resolves the connection and
leaves the client `OPEN`; `.error m` is a rejection with message `m`).
From `CLOSED`, a failure re-enters `CLOSED`, emits
`close {code: 1006, reason: "Abnormal Closure"}` and only then re-throws
the error.  From `CLOSING`, connect throws immediately.  From `OPEN` or
`CONNECTING`, the in-progress `_connectPromise` is returned and no new
connection is begun. -/
def clientConnect (state : StateEnum) (beginConnectResult : Except String Unit) :
    ConnectOutcome :=
  match state with
  | .CLOSED =>
      match beginConnectResult with
      | .ok _ => ⟨.OPEN, none, true, .resolvedOpen⟩
      | .error m => ⟨.CLOSED, some (1006, "Abnormal Closure"), true, .threw m⟩
  | .CLOSING => ⟨.CLOSING, none, false, .threw "Cannot connect while closing"⟩
  | .OPEN => ⟨.OPEN, none, false, .returnedExistingPromise⟩
  | .CONNECTING => ⟨.CONNECTING, none, false, .returnedExistingPromise⟩

/-! ### Claim theorems for the server options, handshake and client connect -/

/-- `strictMode` "enabled" in the sense of claim C5: `true`, or a
non-empty explicit protocol list. -/
def StrictModeOpt.enabled : StrictModeOpt → Bool
  | .bool b => b
  | .list l => !l.isEmpty

/-- **C2.** Subprotocol selection: an explicit protocol outside the
requested set aborts the upgrade with HTTP 400; with no explicit protocol
the first server-preferred protocol also present in the requested set is
selected; and when the two sets do not overlap the selection is empty, the
upgrade still completes (`accept` caches a pending upgrade instead of
erroring) and the negotiated `ws` protocol is the empty string. -/
theorem accept_subprotocol_spec :
    (∀ (serverProtocols requested : List String) (p : String),
      p ∉ requested →
      acceptSelectProtocol serverProtocols requested (some p)
        = .error (400, "Client doesn't support expected subprotocol")) ∧
    (∀ (serverProtocols requested : List String),
      acceptSelectProtocol serverProtocols requested none
        = .ok (serverProtocols.find? (fun q => decide (q ∈ requested)))) ∧
    (∀ (hs : Handshake) (serverProtocols : List String) (session : JSValue),
      (∀ p ∈ serverProtocols, p ∉ hs.protocols) →
      ∃ pu, acceptBuildPending hs serverProtocols session none = .ok pu ∧
        pu.protocol = none ∧ wsNegotiatedProtocol (some pu) = "") := by
  have hfind : ∀ (sp req : List String),
      sp.find? (fun q => req.contains q)
        = sp.find? (fun q => decide (q ∈ req)) := by
    intro sp req
    induction sp with
    | nil => rfl
    | cons a l ih =>
      by_cases h : a ∈ req
      · simp [List.find?, h]
      · simp [List.find?, h, ih]
  refine ⟨?_, ?_, ?_⟩
  · intro sp req p hp
    simp [acceptSelectProtocol, hp]
  · intro sp req
    simp only [acceptSelectProtocol, hfind]
  · intro hs sp session hdisj
    have hnone : sp.find? (fun q => hs.protocols.contains q) = none := by
      rw [List.find?_eq_none]
      simpa using hdisj
    refine ⟨⟨jsNullish session (.object []), none, hs⟩, ?_, rfl, rfl⟩
    simp only [acceptBuildPending, acceptSelectProtocol, hnone]

/-- Closed witness for `accept_subprotocol_spec`: an explicit protocol the
client did not request yields the 400 error, and disjoint protocol sets
yield a completed upgrade with no protocol and empty negotiated string. -/
theorem accept_subprotocol_spec_witness :
    acceptSelectProtocol ["ocpp1.6"] ["ocpp2.0.1"] (some "ocpp1.6")
        = .error (400, "Client doesn't support expected subprotocol") ∧
    ∃ pu, acceptBuildPending ⟨"dev", ["ocpp2.0.1"], none, ""⟩ ["ocpp1.6"]
            (.object []) none = .ok pu ∧
      pu.protocol = none ∧ wsNegotiatedProtocol (some pu) = "" :=
  ⟨accept_subprotocol_spec.1 ["ocpp1.6"] ["ocpp2.0.1"] "ocpp1.6" (by decide),
   accept_subprotocol_spec.2.2 ⟨"dev", ["ocpp2.0.1"], none, ""⟩ ["ocpp1.6"]
     (.object []) (by decide)⟩

/-- **C5.** Strict-mode configuration failure: `reconfigure` throws when
`strictMode` is enabled (true, or a non-empty list) and some strict
protocol has no validator among the standard plus supplied validators; it
throws when `strictMode` is truthy while the merged protocol list is
empty; and whenever it throws, the effective options are unchanged. -/
theorem reconfigure_strict_spec :
    ∀ (standardValidators : List Validator) (old : ServerOptions)
      (d : ServerOptionsDelta),
      ((mergeOptions old d).strictMode.truthy
          ∧ (mergeOptions old d).protocols = [] →
        ∃ m, reconfigure standardValidators old d = .error m) ∧
      ((mergeOptions old d).strictMode.enabled
          ∧ (∃ p ∈ strictProtocolsOf (mergeOptions old d),
              ∀ v ∈ standardValidators
                  ++ (mergeOptions old d).strictModeValidators,
                v.subprotocol ≠ p) →
        ∃ m, reconfigure standardValidators old d = .error m) ∧
      (∀ m, reconfigure standardValidators old d = .error m →
        applyReconfigure standardValidators old d = old) := by
  intro sv old d
  refine ⟨?_, ?_, ?_⟩
  · rintro ⟨htruthy, hempty⟩
    refine ⟨"strictMode requires at least one subprotocol", ?_⟩
    simp [reconfigure, htruthy, hempty]
  · rintro ⟨henabled, p, hp, hmissing⟩
    by_cases hguard : (mergeOptions old d).strictMode.truthy
        ∧ (mergeOptions old d).protocols.isEmpty
    · exact ⟨"strictMode requires at least one subprotocol",
        by simp [reconfigure, hguard.1, hguard.2]⟩
    · have hfind : ((strictProtocolsOf (mergeOptions old d)).find?
          (fun protocol => ¬ (sv ++ (mergeOptions old d).strictModeValidators).any
            (fun v => v.subprotocol = protocol))).isSome := by
        rw [List.find?_isSome]
        refine ⟨p, hp, ?_⟩
        simp only [List.any_eq_true, decide_eq_true_eq, not_exists, not_and,
          decide_not, Bool.not_eq_true', decide_eq_false_iff_not]
        intro v hv
        exact hmissing v hv
      rw [Option.isSome_iff_exists] at hfind
      obtain ⟨missing, hmiss⟩ := hfind
      refine ⟨"Missing strictMode validator for subprotocol '"
        ++ missing ++ "'", ?_⟩
      rw [reconfigure, if_neg hguard]
      simp only [hmiss]
  · intro m hm
    rw [applyReconfigure, hm]

/-- Closed witness for `reconfigure_strict_spec`: enabling `strictMode`
with the unknown protocol `"ocppX"` and no validator for it throws, and
the effective options remain the defaults. -/
theorem reconfigure_strict_spec_witness :
    (∃ m, reconfigure [] {}
      { protocols := some ["ocppX"], strictMode := some (.bool true) }
        = .error m) ∧
    applyReconfigure [] {}
      { protocols := some ["ocppX"], strictMode := some (.bool true) } = {} := by
  have h := reconfigure_strict_spec [] {}
    { protocols := some ["ocppX"], strictMode := some (.bool true) }
  have herr := h.2.1 ⟨by decide, "ocppX", by decide, by decide⟩
  exact ⟨herr, h.2.2 herr.choose herr.choose_spec⟩

/-- **C8.** A server-side peer is created directly in the `OPEN` state,
with its identity taken from the handshake, its protocol fixed to the
websocket's negotiated protocol, its session from the pending upgrade, and
reconnect disabled; `mkRPCServerClient` yields `OPEN` for every input, so
the peer never passes through `CONNECTING`. -/
theorem serverClient_open_spec :
    ∀ (opts : ServerOptions) (pu : PendingUpgrade) (ws : WsHandle),
      (∃ c, onConnection .OPEN opts (some pu) ws = .ok c ∧
        c.state = .OPEN ∧
        c.identity = pu.handshake.identity ∧
        c.protocol = ws.protocol ∧
        c.session = pu.session ∧
        c.options.reconnect = false) ∧
      (∀ (o : RPCBaseClientOptions) (hs : Handshake) (s : JSValue),
        (mkRPCServerClient o ws hs s).state = .OPEN) :=
  fun _ _ _ =>
    ⟨⟨_, rfl, rfl, rfl, rfl, rfl, rfl⟩, fun _ _ _ => rfl⟩

/-- **C9.** Session defaulting: `accept` stores `session ?? {}` on the
pending upgrade, so an `undefined` or `null` session becomes the empty
object (never `undefined`) while any other value passes through
unchanged, and `_onConnection` hands exactly the stored session to the
constructed server-client. -/
theorem session_default_spec :
    ∀ (hs : Handshake) (serverProtocols : List String) (session : JSValue)
      (explicit : Option String) (pu : PendingUpgrade),
      acceptBuildPending hs serverProtocols session explicit = .ok pu →
      ((session = .undefined ∨ session = .jsNull) →
        pu.session = .object []) ∧
      pu.session ≠ .undefined ∧
      (session ≠ .undefined → session ≠ .jsNull → pu.session = session) ∧
      (∀ (opts : ServerOptions) (ws : WsHandle),
        ∃ c, onConnection .OPEN opts (some pu) ws = .ok c ∧
          c.session = pu.session) := by
  intro hs sp session explicit pu hok
  have hsession : pu.session = jsNullish session (.object []) := by
    rw [acceptBuildPending] at hok
    cases hsel : acceptSelectProtocol sp hs.protocols explicit with
    | error e => rw [hsel] at hok; exact absurd hok (by simp)
    | ok proto =>
        rw [hsel] at hok
        cases hok
        rfl
  refine ⟨?_, ?_, ?_, ?_⟩
  · rintro (rfl | rfl) <;> simp [hsession, jsNullish]
  · rw [hsession]
    cases session <;> simp [jsNullish]
  · intro h1 h2
    rw [hsession]
    cases session <;> simp_all [jsNullish]
  · intro opts ws
    exact ⟨_, rfl, rfl⟩

/-- Closed witness for `session_default_spec`: accepting with a `null`
session stores the empty object, which is not `undefined`. -/
theorem session_default_spec_witness :
    ((JSValue.jsNull = .undefined ∨ JSValue.jsNull = .jsNull) →
      (PendingUpgrade.mk (.object []) none ⟨"dev", [], none, ""⟩).session
        = .object []) ∧
    (PendingUpgrade.mk (.object []) none ⟨"dev", [], none, ""⟩).session
        ≠ .undefined ∧
    (JSValue.jsNull ≠ .undefined → JSValue.jsNull ≠ .jsNull →
      (PendingUpgrade.mk (.object []) none ⟨"dev", [], none, ""⟩).session
        = .jsNull) ∧
    (∀ (opts : ServerOptions) (ws : WsHandle),
      ∃ c, onConnection .OPEN opts
          (some (PendingUpgrade.mk (.object []) none ⟨"dev", [], none, ""⟩))
          ws = .ok c ∧
        c.session
          = (PendingUpgrade.mk (.object []) none ⟨"dev", [], none, ""⟩).session) :=
  session_default_spec ⟨"dev", [], none, ""⟩ [] .jsNull none
    (PendingUpgrade.mk (.object []) none ⟨"dev", [], none, ""⟩) rfl

/-- **C10.** Client `connect()` state discipline: from `OPEN` or
`CONNECTING` the in-progress connect promise is returned and no new
connection is begun; from `CLOSING` it throws
`"Cannot connect while closing"`; and a failed connect from `CLOSED`
returns the state to `CLOSED` and emits
`close {code: 1006, reason: "Abnormal Closure"}` while the error
propagates to the caller. -/
theorem connect_state_spec :
    ∀ (r : Except String Unit) (m : String),
      clientConnect .OPEN r
        = ⟨.OPEN, none, false, .returnedExistingPromise⟩ ∧
      clientConnect .CONNECTING r
        = ⟨.CONNECTING, none, false, .returnedExistingPromise⟩ ∧
      clientConnect .CLOSING r
        = ⟨.CLOSING, none, false, .threw "Cannot connect while closing"⟩ ∧
      clientConnect .CLOSED (.error m)
        = ⟨.CLOSED, some (1006, "Abnormal Closure"), true, .threw m⟩ :=
  fun _ _ => ⟨rfl, rfl, rfl, rfl⟩

/-! ## Handshake resolution (server.ts `handleUpgrade`): first-wins -/

/-- The way an upgrade handshake ends: promoted via `accept` (carrying the
selected subprotocol) or aborted with an HTTP status and message. -/
inductive UpgradeOutcome where
  | promoted (protocol : Option String)
  | aborted (code : Nat) (reason : String)
deriving DecidableEq, Repr

/-- The mutable handshake state inside `handleUpgrade`: the `resolved`
flag plus the outcome produced by the resolving call, if any. -/
structure HsState where
  resolved : Bool
  outcome : Option UpgradeOutcome
deriving DecidableEq, Repr

/-- Handshake state before any `accept`/`reject` call. -/
def initialHsState : HsState := ⟨false, none⟩

/-- The calls that can resolve a handshake: a user `accept` (carrying the
socket's readyState and the explicit protocol argument), a user `reject`,
and the internally triggered rejects fired by the socket's `end` and
`close` events. -/
inductive HsEvent where
  | acceptCall (readyState : String) (explicit : Option String)
  | rejectCall (code : Nat) (message : String)
  | socketEnd
  | socketClose
deriving DecidableEq, Repr

/-- One `accept`/`reject` call against the handshake state, mirroring
`handleUpgrade` in server.ts.  Both closures start with
`if (resolved) return` — a resolved handshake ignores every further call.
`accept` then checks the socket readyState (the source's message quotes
the state; the quotes are omitted here), selects the subprotocol, and
either promotes the upgrade or aborts with the raised 400; `reject` aborts
with its code and message; the socket `end` and `close` handlers call
`reject(400, "Client connection closed before upgrade complete")`. -/
def hsStep (serverProtocols requested : List String) (s : HsState)
    (e : HsEvent) : HsState :=
  if s.resolved then s
  else
    match e with
    | .acceptCall readyState explicit =>
        if readyState ≠ "open" then
          ⟨true, some (.aborted 400 ("Client readyState = " ++ readyState))⟩
        else
          match acceptSelectProtocol serverProtocols requested explicit with
          | .ok protocol => ⟨true, some (.promoted protocol)⟩
          | .error (code, msg) => ⟨true, some (.aborted code msg)⟩
    | .rejectCall code message => ⟨true, some (.aborted code message)⟩
    | .socketEnd =>
        ⟨true, some (.aborted 400
          "Client connection closed before upgrade complete")⟩
    | .socketClose =>
        ⟨true, some (.aborted 400
          "Client connection closed before upgrade complete")⟩

/-- A whole sequence of `accept`/`reject`/socket events against one
handshake. -/
def hsRun (serverProtocols requested : List String)
    (events : List HsEvent) : HsState :=
  events.foldl (hsStep serverProtocols requested) initialHsState

/-- A resolved handshake state absorbs every further event. -/
theorem hsRun_resolved_frozen (serverProtocols requested : List String)
    (events : List HsEvent) (s : HsState) (h : s.resolved = true) :
    events.foldl (hsStep serverProtocols requested) s = s := by
  induction events with
  | nil => rfl
  | cons e rest ih =>
      simp only [List.foldl_cons, hsStep, h, if_true]
      exact ih

/-- Every event resolves an unresolved handshake. -/
theorem hsStep_initial_resolves (serverProtocols requested : List String)
    (e : HsEvent) :
    (hsStep serverProtocols requested initialHsState e).resolved = true := by
  cases e with
  | acceptCall readyState explicit =>
      simp only [hsStep, initialHsState, if_false, Bool.false_eq_true]
      split
      · rfl
      · split <;> rfl
  | rejectCall code message => rfl
  | socketEnd => rfl
  | socketClose => rfl

/-- **C6.** Handshake resolution is first-wins: once a handshake is
resolved every further `accept`/`reject` call (including the internal
socket-end/close rejects) is a no-op, so for any event sequence the final
state — and hence the at-most-one promotion or abort — is decided by the
first event alone; and a socket `end` or `close` before resolution rejects
the handshake with HTTP 400. -/
theorem handshake_first_wins_spec :
    ∀ (serverProtocols requested : List String),
      (∀ (s : HsState) (e : HsEvent), s.resolved = true →
        hsStep serverProtocols requested s e = s) ∧
      (∀ (e : HsEvent) (rest : List HsEvent),
        hsRun serverProtocols requested (e :: rest)
          = hsStep serverProtocols requested initialHsState e) ∧
      (∀ e : HsEvent,
        (hsStep serverProtocols requested initialHsState e).resolved
          = true) ∧
      hsStep serverProtocols requested initialHsState .socketEnd
        = ⟨true, some (.aborted 400
            "Client connection closed before upgrade complete")⟩ ∧
      hsStep serverProtocols requested initialHsState .socketClose
        = ⟨true, some (.aborted 400
            "Client connection closed before upgrade complete")⟩ := by
  intro sp req
  refine ⟨?_, ?_, hsStep_initial_resolves sp req, rfl, rfl⟩
  · intro s e h
    simp [hsStep, h]
  · intro e rest
    rw [hsRun, List.foldl_cons]
    exact hsRun_resolved_frozen sp req rest _ (hsStep_initial_resolves sp req e)

/-- Closed witness for `handshake_first_wins_spec`: after an `accept` has
resolved the handshake, a later `reject` is a no-op. -/
theorem handshake_first_wins_spec_witness :
    hsStep ["ocpp1.6"] ["ocpp1.6"]
        ⟨true, some (.promoted (some "ocpp1.6"))⟩ (.rejectCall 404 "Not found")
      = ⟨true, some (.promoted (some "ocpp1.6"))⟩ :=
  (handshake_first_wins_spec ["ocpp1.6"] ["ocpp1.6"]).1
    ⟨true, some (.promoted (some "ocpp1.6"))⟩ (.rejectCall 404 "Not found") rfl

/-! ## Base64 and the basic-auth header (client.js `_beginConnect`,
server.ts `handleUpgrade`)

`Buffer.toString('base64')` / `Buffer.from(b64, 'base64')` at the Node
interface: standard RFC 4648 alphabet with padding on encode; decode also
accepts the URL-safe aliases `-`/`_`.  Bytes are `Nat`s below 256. -/

/-- The standard base64 alphabet, in index order. -/
def b64Alphabet : List Char :=
  ['A', 'B', 'C', 'D', 'E', 'F', 'G', 'H', 'I', 'J', 'K', 'L', 'M',
   'N', 'O', 'P', 'Q', 'R', 'S', 'T', 'U', 'V', 'W', 'X', 'Y', 'Z',
   'a', 'b', 'c', 'd', 'e', 'f', 'g', 'h', 'i', 'j', 'k', 'l', 'm',
   'n', 'o', 'p', 'q', 'r', 's', 't', 'u', 'v', 'w', 'x', 'y', 'z',
   '0', '1', '2', '3', '4', '5', '6', '7', '8', '9', '+', '/']

/-- The alphabet character of a 6-bit group. -/
def b64Char (n : Nat) : Char := b64Alphabet.getD n '='

/-- The 6-bit value of a character on decode; Node's decoder also maps
the URL-safe `-` and `_` to 62 and 63. -/
def b64Val (c : Char) : Option Nat :=
  if c = '-' then some 62
  else if c = '_' then some 63
  else
    let i := b64Alphabet.indexOf c
    if i < 64 then some i else none

/-- `Buffer.toString('base64')`: encode three bytes into four characters,
padding a final one- or two-byte group with `=`. -/
def b64EncodeChunks : List Nat → List Char
  | [] => []
  | [a] => [b64Char (a / 4), b64Char (a % 4 * 16), '=', '=']
  | [a, b] =>
      [b64Char (a / 4), b64Char (a % 4 * 16 + b / 16), b64Char (b % 16 * 4),
       '=']
  | a :: b :: c :: rest =>
      b64Char (a / 4) :: b64Char (a % 4 * 16 + b / 16)
        :: b64Char (b % 16 * 4 + c / 64) :: b64Char (c % 64)
        :: b64EncodeChunks rest

/-- `Buffer.from(b64, 'base64')`: decode four characters into three bytes,
with `=`-padding allowed in the final chunk only. -/
def b64DecodeChunks : List Char → Option (List Nat)
  | [] => some []
  | w :: x :: y :: z :: rest =>
      (match b64Val w, b64Val x with
      | some w', some x' =>
          if y = '=' ∧ z = '=' ∧ rest = [] then
            some [w' * 4 + x' / 16]
          else if z = '=' ∧ rest = [] then
            (match b64Val y with
            | some y' => some [w' * 4 + x' / 16, x' % 16 * 16 + y' / 4]
            | none => none)
          else
            (match b64Val y, b64Val z, b64DecodeChunks rest with
            | some y', some z', some rest' =>
                some ((w' * 4 + x' / 16) :: (x' % 16 * 16 + y' / 4)
                  :: (y' % 4 * 64 + z') :: rest')
            | _, _, _ => none)
      | _, _ => none)
  | _ => none

/-- Decoding inverts the alphabet on every 6-bit group (`Fin` form, for
`decide`). -/
theorem b64Val_b64Char_fin :
    ∀ n : Fin 64, b64Val (b64Char n.val) = some n.val := by
  decide

/-- Decoding inverts the alphabet on every 6-bit group. -/
theorem b64Val_b64Char (n : Nat) (h : n < 64) :
    b64Val (b64Char n) = some n :=
  b64Val_b64Char_fin ⟨n, h⟩

/-- No 6-bit group encodes to the padding character (`Fin` form). -/
theorem b64Char_ne_pad_fin : ∀ n : Fin 64, b64Char n.val ≠ '=' := by
  decide

/-- No 6-bit group encodes to the padding character. -/
theorem b64Char_ne_pad (n : Nat) (h : n < 64) : b64Char n ≠ '=' :=
  b64Char_ne_pad_fin ⟨n, h⟩

/-- Base64 round trip: decoding an encoded byte string recovers it. -/
theorem b64_decode_encode (bs : List Nat) (hb : ∀ b ∈ bs, b < 256) :
    b64DecodeChunks (b64EncodeChunks bs) = some bs := by
  induction bs using b64EncodeChunks.induct with
  | case1 => rfl
  | case2 a =>
      have ha : a < 256 := hb a (by simp)
      have h1 := b64Val_b64Char (a / 4) (by omega)
      have h2 := b64Val_b64Char (a % 4 * 16) (by omega)
      simp only [b64EncodeChunks, b64DecodeChunks, h1, h2]
      rw [if_pos (by simp)]
      simp only [Option.some.injEq, List.cons.injEq, and_true]
      omega
  | case3 a b =>
      have ha : a < 256 := hb a (by simp)
      have hbb : b < 256 := hb b (by simp)
      have h1 := b64Val_b64Char (a / 4) (by omega)
      have h2 := b64Val_b64Char (a % 4 * 16 + b / 16) (by omega)
      have h3 := b64Val_b64Char (b % 16 * 4) (by omega)
      have h3ne := b64Char_ne_pad (b % 16 * 4) (by omega)
      simp only [b64EncodeChunks, b64DecodeChunks, h1, h2, h3]
      rw [if_neg (by simp [h3ne]), if_pos (by simp)]
      simp only [Option.some.injEq, List.cons.injEq, and_true]
      omega
  | case4 a b c rest ih =>
      have ha : a < 256 := hb a (by simp)
      have hbb : b < 256 := hb b (by simp)
      have hc : c < 256 := hb c (by simp)
      have hrest : ∀ x ∈ rest, x < 256 := by
        intro x hx
        exact hb x (by simp [hx])
      have h1 := b64Val_b64Char (a / 4) (by omega)
      have h2 := b64Val_b64Char (a % 4 * 16 + b / 16) (by omega)
      have h3 := b64Val_b64Char (b % 16 * 4 + c / 64) (by omega)
      have h4 := b64Val_b64Char (c % 64) (by omega)
      have h3ne := b64Char_ne_pad (b % 16 * 4 + c / 64) (by omega)
      have h4ne := b64Char_ne_pad (c % 64) (by omega)
      simp only [b64EncodeChunks, b64DecodeChunks, h1, h2, h3, h4]
      rw [if_neg (by simp [h3ne]), if_neg (by simp [h4ne]), ih hrest]
      simp only [Option.some.injEq, List.cons.injEq, and_true]
      refine ⟨by omega, by omega, by omega⟩

/-- The character class `[-A-Za-z0-9._~+/]` (hyphen moved first here; the
source writes it last) of the authorization-header regex in server.ts. -/
def isAuthB64Char (c : Char) : Bool :=
  let n := c.toNat
  (65 ≤ n && n ≤ 90) || (97 ≤ n && n ≤ 122) || (48 ≤ n && n ≤ 57)
    || n == 46 || n == 95 || n == 126 || n == 43 || n == 47 || n == 45

/-- The regex `^ *(?:[Bb][Aa][Ss][Ii][Cc]) +([-A-Za-z0-9._~+/]+=*) *$`
(hyphen moved first in the class; the source writes it last) from
`handleUpgrade` in server.ts, applied to the `Authorization` header:
optional leading spaces, a case-insensitive `Basic`, at least one space,
then the captured group — a non-empty run of class characters followed by
a run of `=` — and optional trailing spaces.  Returns the capture. -/
def authCapture (cs : List Char) : Option (List Char) :=
  if cs.takeWhile isAuthB64Char = [] then none
  else if (cs.dropWhile isAuthB64Char).dropWhile (fun ch => ch == '=')
      |>.all (fun ch => ch == ' ') then
    some (cs.takeWhile isAuthB64Char
      ++ (cs.dropWhile isAuthB64Char).takeWhile (fun ch => ch == '='))
  else none

/-- The leading-spaces, case-insensitive `Basic` and mandatory-space part
of the regex; the capture is delegated to `authCapture`. -/
def matchBasicAuthHeader (header : String) : Option (List Char) :=
  match header.toList.dropWhile (fun ch => ch == ' ') with
  | b :: a :: s :: i :: c :: rest =>
      if (b = 'B' ∨ b = 'b') ∧ (a = 'A' ∨ a = 'a') ∧ (s = 'S' ∨ s = 's')
          ∧ (i = 'I' ∨ i = 'i') ∧ (c = 'C' ∨ c = 'c') then
        match rest with
        | ' ' :: rest1 => authCapture (rest1.dropWhile (fun ch => ch == ' '))
        | _ => none
      else none
  | _ => none

/-- The password-extraction block of `handleUpgrade` (server.ts): match
the header against the basic-auth regex, base64-decode the capture,
compare the leading bytes of the result with `identity + ":"`
(`Buffer.compare` with an explicit end offset, which raises — and is then
swallowed by the enclosing try/catch — when the decoded buffer is shorter
than the prefix), and keep the remainder as the password.  Every failure
path leaves the password `none`. -/
def parseBasicAuthPassword (identityBytes : List Nat) (authHeader : String) :
    Option (List Nat) :=
  match matchBasicAuthHeader authHeader with
  | none => none
  | some b64 =>
      match b64DecodeChunks b64 with
      | none => none
      | some userPass =>
          if (identityBytes ++ [58]).length ≤ userPass.length then
            if userPass.take (identityBytes ++ [58]).length
                = identityBytes ++ [58] then
              some (userPass.drop (identityBytes ++ [58]).length)
            else none
          else none

/-- The authorization header built by `_beginConnect` in client.js:
`'Basic ' + base64(identityBytes ++ ':' ++ passwordBytes)` (byte 58 is the
colon `Buffer.from(identity + ':')` appends). -/
def mkBasicAuthHeader (identityBytes password : List Nat) : String :=
  "Basic " ++ String.mk (b64EncodeChunks (identityBytes ++ 58 :: password))

/-- One character's UTF-8 bytes, as `Buffer.from(string)` produces them. -/
def utf8EncodeCharBytes (c : Char) : List Nat :=
  if c.toNat < 128 then [c.toNat]
  else if c.toNat < 2048 then [192 + c.toNat / 64, 128 + c.toNat % 64]
  else if c.toNat < 65536 then
    [224 + c.toNat / 4096, 128 + c.toNat / 64 % 64, 128 + c.toNat % 64]
  else
    [240 + c.toNat / 262144, 128 + c.toNat / 4096 % 64,
     128 + c.toNat / 64 % 64, 128 + c.toNat % 64]

/-- `Buffer.from(s)`: the UTF-8 bytes of a string. -/
def utf8Bytes (s : String) : List Nat :=
  s.data.flatMap utf8EncodeCharBytes

/-- `String.prototype.toLowerCase()` at the interface level: per-character
ASCII lowering. -/
def jsToLower (s : String) : String := String.mk (s.data.map Char.toLower)

/-- The handshake-construction phase of `handleUpgrade` (server.ts): the
state and readyState guards, the `Upgrade: websocket` check
(case-insensitive; a missing header also rejects), then the handshake
record with the password extracted from the `Authorization` header —
extraction failure is non-fatal and never aborts the upgrade.  `identity`
is the URL-decoded last path segment and `protocols` the parsed
`Sec-WebSocket-Protocol` set, both taken here as inputs. -/
def buildHandshake (serverState : StateEnum) (readyState : String)
    (upgradeHeader : Option String) (authorization : Option String)
    (identity : String) (protocols : List String) (endpoint : String) :
    Except (Nat × String) Handshake :=
  if serverState ≠ .OPEN then
    .error (500, "Server not open")
  else if readyState ≠ "open" then
    .error (400, "Client readyState = " ++ readyState)
  else if upgradeHeader.map jsToLower ≠ some "websocket" then
    .error (400, "Can only upgrade websocket upgrade requests")
  else
    let password := authorization.bind
      (parseBasicAuthPassword (utf8Bytes identity))
    .ok ⟨identity, protocols, password, endpoint⟩

/-- `takeWhile`/`dropWhile` split an append at the boundary where the
predicate first fails. -/
theorem takeWhile_dropWhile_append {α : Type} (f : α → Bool) (g p : List α)
    (hg : ∀ c ∈ g, f c = true)
    (hp : ∀ c, p.head? = some c → f c = false) :
    (g ++ p).takeWhile f = g ∧ (g ++ p).dropWhile f = p := by
  induction g with
  | nil =>
      cases p with
      | nil => exact ⟨rfl, rfl⟩
      | cons c cs =>
          have hc := hp c rfl
          simp [List.takeWhile_cons, List.dropWhile_cons, hc]
  | cons a g' ih =>
      have ha : f a = true := hg a (by simp)
      have ih' := ih (fun c hc => hg c (by simp [hc]))
      simp [List.takeWhile_cons, List.dropWhile_cons, ha, ih'.1, ih'.2]

/-- Every alphabet character is in the regex's character class (`Fin`
form). -/
theorem isAuthB64Char_b64Char_fin :
    ∀ n : Fin 64, isAuthB64Char (b64Char n.val) = true := by
  decide

/-- Every alphabet character is in the regex's character class. -/
theorem isAuthB64Char_b64Char (n : Nat) (h : n < 64) :
    isAuthB64Char (b64Char n) = true :=
  isAuthB64Char_b64Char_fin ⟨n, h⟩

/-- The shape of base64 output: a run of class characters (non-empty for
non-empty input) followed by a run of padding `=`. -/
theorem b64Encode_shape (bs : List Nat) (hb : ∀ b ∈ bs, b < 256) :
    ∃ g p, b64EncodeChunks bs = g ++ p
      ∧ (∀ ch ∈ g, isAuthB64Char ch = true)
      ∧ (∀ ch ∈ p, ch = '=')
      ∧ (bs ≠ [] → g ≠ []) := by
  induction bs using b64EncodeChunks.induct with
  | case1 => exact ⟨[], [], rfl, by simp, by simp, by simp⟩
  | case2 a =>
      have ha : a < 256 := hb a (by simp)
      refine ⟨[b64Char (a / 4), b64Char (a % 4 * 16)], ['=', '='], rfl,
        ?_, by simp, by simp⟩
      intro ch hch
      simp only [List.mem_cons, List.not_mem_nil, or_false] at hch
      rcases hch with rfl | rfl
      · exact isAuthB64Char_b64Char _ (by omega)
      · exact isAuthB64Char_b64Char _ (by omega)
  | case3 a b =>
      have ha : a < 256 := hb a (by simp)
      have hbb : b < 256 := hb b (by simp)
      refine ⟨[b64Char (a / 4), b64Char (a % 4 * 16 + b / 16),
        b64Char (b % 16 * 4)], ['='], rfl, ?_, by simp, by simp⟩
      intro ch hch
      simp only [List.mem_cons, List.not_mem_nil, or_false] at hch
      rcases hch with rfl | rfl | rfl
      · exact isAuthB64Char_b64Char _ (by omega)
      · exact isAuthB64Char_b64Char _ (by omega)
      · exact isAuthB64Char_b64Char _ (by omega)
  | case4 a b c rest ih =>
      have ha : a < 256 := hb a (by simp)
      have hbb : b < 256 := hb b (by simp)
      have hc : c < 256 := hb c (by simp)
      obtain ⟨g', p', hsplit, hg', hp', -⟩ :=
        ih (fun x hx => hb x (by simp [hx]))
      refine ⟨b64Char (a / 4) :: b64Char (a % 4 * 16 + b / 16)
        :: b64Char (b % 16 * 4 + c / 64) :: b64Char (c % 64) :: g', p',
        ?_, ?_, hp', by simp⟩
      · simp [b64EncodeChunks, hsplit]
      · intro ch hch
        simp only [List.mem_cons] at hch
        rcases hch with rfl | rfl | rfl | rfl | hch
        · exact isAuthB64Char_b64Char _ (by omega)
        · exact isAuthB64Char_b64Char _ (by omega)
        · exact isAuthB64Char_b64Char _ (by omega)
        · exact isAuthB64Char_b64Char _ (by omega)
        · exact hg' ch hch

/-- The server's authorization regex accepts the header the client
builds, capturing exactly the base64 text. -/
theorem matchBasicAuthHeader_mk (bs : List Nat) (hbs : bs ≠ [])
    (hb : ∀ b ∈ bs, b < 256) :
    matchBasicAuthHeader ("Basic " ++ String.mk (b64EncodeChunks bs))
      = some (b64EncodeChunks bs) := by
  obtain ⟨g, p, hsplit, hg, hp, hne⟩ := b64Encode_shape bs hb
  have hphead : ∀ ch, p.head? = some ch → isAuthB64Char ch = false := by
    intro ch hch
    cases p with
    | nil => exact absurd hch (by simp)
    | cons q qs =>
        have : q = ch := by simpa using hch
        subst this
        have : q = '=' := hp q (by simp)
        subst this
        decide
  cases hg' : g with
  | nil => exact absurd hg' (hne hbs)
  | cons ch g' =>
      subst hg'
      have hch : isAuthB64Char ch = true := hg ch (by simp)
      have hchs : (ch == ' ') = false := by
        have hsp : isAuthB64Char ' ' = false := by decide
        cases hbe : ch == ' '
        · rfl
        · exact absurd (hch ▸ (eq_of_beq hbe) ▸ hsp) (by simp)
      have htw := takeWhile_dropWhile_append isAuthB64Char (ch :: g') p
        hg hphead
      have hpw := takeWhile_dropWhile_append (fun q => q == '=') p []
        (fun q hq => by simp [hp q hq]) (by simp)
      simp only [List.append_nil] at hpw
      have houter : matchBasicAuthHeader
          ("Basic " ++ String.mk (b64EncodeChunks bs))
          = authCapture ((b64EncodeChunks bs).dropWhile
              (fun q => q == ' ')) := rfl
      rw [houter, hsplit]
      have hdrop2 : (ch :: g' ++ p).dropWhile (fun q => q == ' ')
          = ch :: g' ++ p := by
        simp only [List.cons_append, List.dropWhile_cons, hchs,
          Bool.false_eq_true, if_false]
      rw [hdrop2, authCapture, htw.1, htw.2, hpw.1, hpw.2]
      simp

/-- UTF-8 bytes of one character are bytes. -/
theorem utf8EncodeCharBytes_lt (c : Char) :
    ∀ b ∈ utf8EncodeCharBytes c, b < 256 := by
  have hn : c.toNat < 1114112 := by
    have h := c.valid
    unfold UInt32.isValidChar Nat.isValidChar at h
    simp [Char.toNat]
    omega
  intro b hb
  unfold utf8EncodeCharBytes at hb
  split at hb
  · simp only [List.mem_singleton] at hb
    omega
  · split at hb
    · simp only [List.mem_cons, List.not_mem_nil, or_false] at hb
      rcases hb with rfl | rfl <;> omega
    · split at hb
      · simp only [List.mem_cons, List.not_mem_nil, or_false] at hb
        rcases hb with rfl | rfl | rfl <;> omega
      · simp only [List.mem_cons, List.not_mem_nil, or_false] at hb
        rcases hb with rfl | rfl | rfl | rfl <;> omega

/-- UTF-8 bytes of a string are bytes. -/
theorem utf8Bytes_lt (s : String) : ∀ b ∈ utf8Bytes s, b < 256 := by
  intro b hb
  unfold utf8Bytes at hb
  rw [List.mem_flatMap] at hb
  obtain ⟨c, -, hc⟩ := hb
  exact utf8EncodeCharBytes_lt c b hc

/-- The full parse of the client-built header recovers the password. -/
theorem parseBasicAuthPassword_roundtrip (identityBytes password : List Nat)
    (hid : ∀ b ∈ identityBytes, b < 256) (hpw : ∀ b ∈ password, b < 256) :
    parseBasicAuthPassword identityBytes
      (mkBasicAuthHeader identityBytes password) = some password := by
  have hall : ∀ b ∈ identityBytes ++ 58 :: password, b < 256 := by
    intro b hb
    rcases List.mem_append.mp hb with h | h
    · exact hid b h
    · rcases List.mem_cons.mp h with rfl | h
      · omega
      · exact hpw b h
  have hne : identityBytes ++ 58 :: password ≠ [] := by simp
  have hmatch := matchBasicAuthHeader_mk _ hne hall
  have hdec := b64_decode_encode _ hall
  have hsplit : identityBytes ++ 58 :: password
      = (identityBytes ++ [58]) ++ password := by simp
  rw [parseBasicAuthPassword, mkBasicAuthHeader]
  simp only [hmatch, hdec]
  rw [hsplit, if_pos (by simp), if_pos (List.take_left _ _), List.drop_left]

/-- **C1.** Basic-auth round trip: for every identity byte string and
password byte string, the header the client builds
(`'Basic ' + base64(identity + ':' + password)`, the identity being
pre-committed via the URL path) is decoded by the server handshake, the
leading bytes match `identity + ':'`, and the extracted password equals
the client's byte-for-byte — colons and arbitrary bytes included; when
the decoded bytes do not start with `identity + ':'` the extraction
yields nothing, and a handshake whose header extraction fails leaves
`password` unset while the upgrade proceeds un-aborted. -/
theorem basic_auth_roundtrip_spec :
    ∀ (identityBytes password : List Nat),
      (∀ b ∈ identityBytes, b < 256) →
      (∀ b ∈ password, b < 256) →
      parseBasicAuthPassword identityBytes
          (mkBasicAuthHeader identityBytes password) = some password ∧
      (∀ (identity : String) (protocols : List String) (endpoint : String),
        buildHandshake .OPEN "open" (some "websocket")
            (some (mkBasicAuthHeader (utf8Bytes identity) password))
            identity protocols endpoint
          = .ok ⟨identity, protocols, some password, endpoint⟩) ∧
      (∀ (userPass : List Nat) (header : String) (b64 : List Char),
        matchBasicAuthHeader header = some b64 →
        b64DecodeChunks b64 = some userPass →
        userPass.take (identityBytes.length + 1) ≠ identityBytes ++ [58] →
        parseBasicAuthPassword identityBytes header = none) ∧
      (∀ (identity : String) (auth : Option String)
          (protocols : List String) (endpoint : String),
        auth.bind (parseBasicAuthPassword (utf8Bytes identity)) = none →
        buildHandshake .OPEN "open" (some "websocket") auth identity
            protocols endpoint
          = .ok ⟨identity, protocols, none, endpoint⟩) := by
  intro identityBytes password hid hpw
  refine ⟨parseBasicAuthPassword_roundtrip identityBytes password hid hpw,
    ?_, ?_, ?_⟩
  · intro identity protocols endpoint
    have hrt := parseBasicAuthPassword_roundtrip (utf8Bytes identity)
      password (utf8Bytes_lt identity) hpw
    rw [buildHandshake, if_neg (by decide), if_neg (by decide),
      if_neg (by decide)]
    simp [hrt]
  · intro userPass header b64 hm hd hmismatch
    rw [parseBasicAuthPassword]
    simp only [hm, hd]
    by_cases hle : (identityBytes ++ [58]).length ≤ userPass.length
    · rw [if_pos hle, if_neg]
      simpa using hmismatch
    · rw [if_neg hle]
  · intro identity auth protocols endpoint h
    rw [buildHandshake, if_neg (by decide), if_neg (by decide),
      if_neg (by decide)]
    simp [h]

/-- Closed witness for `basic_auth_roundtrip_spec`, at the spec's own
example: identity `dev:1` (bytes `[100,101,118,58,49]`) and password
`p:q` (bytes `[112,58,113]`), both containing colons, round-trip through
the header. -/
theorem basic_auth_roundtrip_spec_witness :
    parseBasicAuthPassword [100, 101, 118, 58, 49]
        (mkBasicAuthHeader [100, 101, 118, 58, 49] [112, 58, 113])
      = some [112, 58, 113] :=
  (basic_auth_roundtrip_spec [100, 101, 118, 58, 49] [112, 58, 113]
    (by decide) (by decide)).1

end OcppRpc
